import Mathlib

/-!
Shallow embedding of the task-manager backend
(src/services/backend/src/index.js) and its PostgreSQL schema
(tasks table DDL). Timestamps are naturals supplied by a clock
parameter `now`; the Redis cache is a list of keyed entries with an
absolute expiry instant; environmental faults (cache disconnected,
a cache operation throwing, a Store query throwing) are explicit
flags in an `Env` record. Each HTTP handler is a pure function from
request, store state, cache state, environment and clock to a
response, the next store state, the next cache state and a trace of
the Store and cache operations it performed, in order.
-/

namespace TaskManager

/-- A row of the `tasks` table: id SERIAL PRIMARY KEY, title VARCHAR NOT
NULL, description TEXT DEFAULT empty, completed BOOLEAN DEFAULT FALSE,
created_at / updated_at TIMESTAMP DEFAULT CURRENT_TIMESTAMP. -/
structure Task where
  id : Nat
  title : String
  description : String
  completed : Bool
  created_at : Nat
  updated_at : Nat
deriving DecidableEq, Repr

/-- The durable relational store: the rows of the `tasks` table in
physical order, plus the next value of the `id` SERIAL sequence. -/
structure StoreState where
  tasks : List Task
  nextId : Nat
deriving DecidableEq, Repr

/-- The store as created by the init script before any request
(sample rows aside): empty table, SERIAL sequence at 1. -/
def initialStore : StoreState := ⟨[], 1⟩

/-- A value held in the cache: the JSON stored under a key is either a
serialized task list (key "tasks:all") or a single task (key
"tasks:id"). -/
inductive CacheValue where
  | list (ts : List Task)
  | single (t : Task)
deriving DecidableEq, Repr

/-- The Redis cache: entries of key, value and absolute expiry instant
(setEx stores a value that expires `ttl` seconds after the write). -/
abbrev Cache := List (String × CacheValue × Nat)

/-- Environmental conditions of one request: whether the Redis client
is connected (`redisConnected` in the source), whether each kind of
cache call throws (modelling the try/catch blocks of the cache
helpers), and whether Store queries throw (`none` means the Store is
healthy, `some m` means every pg query rejects with message m). -/
structure Env where
  redisConnected : Bool
  getFails : Bool
  setFails : Bool
  invalidateFails : Bool
  storeFail : Option String
deriving DecidableEq, Repr

/-- An environment in which every service is healthy. -/
def okEnv : Env := ⟨true, false, false, false, none⟩

/-- Events recorded by a handler, in execution order: a Store read
query, a Store write query (INSERT, UPDATE or DELETE), a cache read
attempt, a cache write attempt, a cache invalidation attempt. -/
inductive Ev where
  | storeQuery
  | storeWrite
  | cacheRead
  | cacheWrite
  | cacheInval
deriving DecidableEq, Repr

/-- HTTP responses of the API, by status and payload shape:
200 read with cached flag, 201 created, 200 updated, 200 deleted,
200 stats, 400 validation, 404 not found, 500 infrastructure. -/
inductive Resp where
  | readOk (data : CacheValue) (cached : Bool)
  | created (t : Task)
  | updated (t : Task)
  | deleted (id : Nat)
  | statsOk (total completed pending : Nat)
  | badRequest (msg : String)
  | notFound (msg : String)
  | serverError (msg : String)
deriving DecidableEq, Repr

/-- A JSON request body, as destructured by the handlers: each of
title, description, completed is present or absent. -/
structure Body where
  title : Option String
  description : Option String
  completed : Option Bool
deriving DecidableEq, Repr

/-- The API requests the claims concern. -/
inductive Req where
  | list
  | getById (id : Nat)
  | create (b : Body)
  | update (id : Nat) (b : Body)
  | delete (id : Nat)
  | stats
deriving DecidableEq, Repr

/-- The glob "tasks:*" used by every invalidateCache call matches
exactly the keys with prefix "tasks:". -/
def matchesTasksStar (key : String) : Bool :=
  "tasks:".data.isPrefixOf key.data

/-- getFromCache: returns null when Redis is not connected, when the
get throws (caught), or when the key is absent or expired; else the
parsed value. -/
def getFromCache (env : Env) (c : Cache) (now : Nat) (key : String) :
    Option CacheValue :=
  if !env.redisConnected then none
  else if env.getFails then none
  else match c.find? (fun e => e.1 == key) with
    | some e => if now < e.2.2 then some e.2.1 else none
    | none => none

/-- setInCache: a no-op when Redis is not connected or setEx throws
(caught); else stores the value under the key, expiring
`expirationSeconds` after `now`. -/
def setInCache (env : Env) (c : Cache) (now : Nat) (key : String)
    (v : CacheValue) (expirationSeconds : Nat) : Cache :=
  if !env.redisConnected then c
  else if env.setFails then c
  else (key, v, now + expirationSeconds) :: c.filter (fun e => e.1 != key)

/-- invalidateCache with its only ever supplied pattern "tasks:*": a
no-op when Redis is not connected or keys/del throws (caught); else
deletes every entry whose key matches the pattern. -/
def invalidateCache (env : Env) (c : Cache) : Cache :=
  if !env.redisConnected then c
  else if env.invalidateFails then c
  else c.filter (fun e => !matchesTasksStar e.1)

/-- The row set of
SELECT ... FROM tasks ORDER BY created_at DESC. -/
def listTasks (s : StoreState) : List Task :=
  s.tasks.insertionSort (fun a b => b.created_at ≤ a.created_at)

/-- GET /api/tasks: cache first under key "tasks:all"; on a hit,
return it with cached true; on a miss, query the store, cache the
rows for 60 seconds, return them with cached false. -/
def listHandler (env : Env) (s : StoreState) (c : Cache) (now : Nat) :
    Resp × StoreState × Cache × List Ev :=
  match getFromCache env c now "tasks:all" with
  | some v => (.readOk v true, s, c, [.cacheRead])
  | none =>
    match env.storeFail with
    | some m => (.serverError m, s, c, [.cacheRead, .storeQuery])
    | none =>
      let tasks := listTasks s
      let c2 := setInCache env c now "tasks:all" (.list tasks) 60
      (.readOk (.list tasks) false, s, c2, [.cacheRead, .storeQuery, .cacheWrite])

/-- GET /api/tasks/:id: cache first under key "tasks:" ++ id; on a
miss, query the store by id, 404 when no row, else cache the row for
300 seconds and return it with cached false. -/
def getByIdHandler (env : Env) (id : Nat) (s : StoreState) (c : Cache)
    (now : Nat) : Resp × StoreState × Cache × List Ev :=
  let key := "tasks:" ++ toString id
  match getFromCache env c now key with
  | some v => (.readOk v true, s, c, [.cacheRead])
  | none =>
    match env.storeFail with
    | some m => (.serverError m, s, c, [.cacheRead, .storeQuery])
    | none =>
      match s.tasks.find? (fun t => t.id == id) with
      | none => (.notFound "Task not found", s, c, [.cacheRead, .storeQuery])
      | some t =>
        let c2 := setInCache env c now key (.single t) 300
        (.readOk (.single t) false, s, c2, [.cacheRead, .storeQuery, .cacheWrite])

/-- POST /api/tasks: destructures only title and description from the
body; 400 when title is absent or empty; else INSERT with description
defaulted to the empty string, completed FALSE, both timestamps set to
the current instant and the id drawn from the SERIAL sequence, then
invalidate "tasks:*", then 201 with the new row. -/
def createHandler (env : Env) (b : Body) (s : StoreState) (c : Cache)
    (now : Nat) : Resp × StoreState × Cache × List Ev :=
  match b.title with
  | none => (.badRequest "Title is required", s, c, [])
  | some t =>
    if t == "" then (.badRequest "Title is required", s, c, [])
    else
      match env.storeFail with
      | some m => (.serverError m, s, c, [.storeWrite])
      | none =>
        let d := match b.description with
          | some d => if d == "" then "" else d
          | none => ""
        let newTask : Task := ⟨s.nextId, t, d, false, now, now⟩
        let s2 : StoreState := ⟨s.tasks ++ [newTask], s.nextId + 1⟩
        let c2 := invalidateCache env c
        (.created newTask, s2, c2, [.storeWrite, .cacheInval])

/-- The SET clause of the UPDATE built by the PUT handler: each field
present in the body is assigned, updated_at is always set to NOW(). -/
def applyUpdateFields (b : Body) (now : Nat) (t : Task) : Task :=
  { t with
    title := match b.title with | some v => v | none => t.title
    description := match b.description with | some v => v | none => t.description
    completed := match b.completed with | some v => v | none => t.completed
    updated_at := now }

/-- Whether the PUT body supplies at least one updatable field. -/
def hasFields (b : Body) : Bool :=
  b.title.isSome || b.description.isSome || b.completed.isSome

/-- PUT /api/tasks/:id: first a SELECT checks the id exists (404
otherwise); then, when no field is supplied, 400; else UPDATE the
matching row, invalidate "tasks:*", 200 with the updated row. -/
def updateHandler (env : Env) (id : Nat) (b : Body) (s : StoreState)
    (c : Cache) (now : Nat) : Resp × StoreState × Cache × List Ev :=
  match env.storeFail with
  | some m => (.serverError m, s, c, [.storeQuery])
  | none =>
    match s.tasks.find? (fun t => t.id == id) with
    | none => (.notFound "Task not found", s, c, [.storeQuery])
    | some old =>
      if !hasFields b then (.badRequest "No fields to update", s, c, [.storeQuery])
      else
        let updatedTask := applyUpdateFields b now old
        let s2 : StoreState :=
          ⟨s.tasks.map (fun t => if t.id == id then applyUpdateFields b now t else t),
           s.nextId⟩
        let c2 := invalidateCache env c
        (.updated updatedTask, s2, c2, [.storeQuery, .storeWrite, .cacheInval])

/-- DELETE /api/tasks/:id: DELETE ... RETURNING id; when no row was
deleted, 404; else invalidate "tasks:*", 200 with the deleted id. -/
def deleteHandler (env : Env) (id : Nat) (s : StoreState) (c : Cache) :
    Resp × StoreState × Cache × List Ev :=
  match env.storeFail with
  | some m => (.serverError m, s, c, [.storeWrite])
  | none =>
    if s.tasks.all (fun t => t.id != id) then
      (.notFound "Task not found", s, c, [.storeWrite])
    else
      let s2 : StoreState := ⟨s.tasks.filter (fun t => t.id != id), s.nextId⟩
      let c2 := invalidateCache env c
      (.deleted id, s2, c2, [.storeWrite, .cacheInval])

/-- GET /api/stats: one aggregate query counting all rows, the rows
with completed true and the rows with completed false. -/
def statsHandler (env : Env) (s : StoreState) (c : Cache) :
    Resp × StoreState × Cache × List Ev :=
  match env.storeFail with
  | some m => (.serverError m, s, c, [.storeQuery])
  | none =>
    (.statsOk s.tasks.length (s.tasks.countP (fun t => t.completed))
      (s.tasks.countP (fun t => !t.completed)), s, c, [.storeQuery])

/-- Dispatch of the API routes the claims concern. -/
def handle (env : Env) (req : Req) (s : StoreState) (c : Cache) (now : Nat) :
    Resp × StoreState × Cache × List Ev :=
  match req with
  | .list => listHandler env s c now
  | .getById id => getByIdHandler env id s c now
  | .create b => createHandler env b s c now
  | .update id b => updateHandler env id b s c now
  | .delete id => deleteHandler env id s c
  | .stats => statsHandler env s c

/-- Whether a response reports a successful write. -/
def isWriteSuccess : Resp → Bool
  | .created _ => true
  | .updated _ => true
  | .deleted _ => true
  | _ => false

/-- Whether a response is a 500 infrastructure error. -/
def isServerError : Resp → Bool
  | .serverError _ => true
  | _ => false

/-- The data-model invariant of claim C4: every existing record has a
non-empty title. -/
def titlesNonEmpty (s : StoreState) : Prop :=
  ∀ t ∈ s.tasks, t.title ≠ ""

/-- The SERIAL sequence invariant: every existing id is below the next
value the sequence will assign. -/
def freshIds (s : StoreState) : Prop :=
  ∀ t ∈ s.tasks, t.id < s.nextId

/-!
Theorems. First some shared lemmas about the cache helpers and the
list handler, then one theorem per claim.
-/

/-- A list of characters is a prefix of itself followed by anything. -/
theorem isPrefixOf_append_self (l t : List Char) : l.isPrefixOf (l ++ t) = true := by
  induction l with
  | nil => cases t <;> rfl
  | cons a l ih => simp [List.isPrefixOf, ih]

/-- The collection key matches the invalidation pattern. -/
theorem matchesTasksStar_all : matchesTasksStar "tasks:all" = true := by decide

/-- Every per-id key matches the invalidation pattern. -/
theorem matchesTasksStar_key (x : String) :
    matchesTasksStar ("tasks:" ++ x) = true := by
  unfold matchesTasksStar
  rw [String.data_append]
  exact isPrefixOf_append_self _ _

/-- After a successful invalidation, no key matching the pattern is
found in the cache, whatever environment and instant the lookup uses. -/
theorem getFromCache_after_invalidate (env env2 : Env) (c : Cache) (now2 : Nat)
    (key : String) (hc : env.redisConnected = true) (hf : env.invalidateFails = false)
    (hk : matchesTasksStar key = true) :
    getFromCache env2 (invalidateCache env c) now2 key = none := by
  unfold invalidateCache
  rw [hc, hf]
  simp only [Bool.not_true, Bool.false_eq_true, if_false]
  unfold getFromCache
  cases hcon : env2.redisConnected
  · simp
  · cases hget : env2.getFails
    · have hnone : (c.filter (fun e => !matchesTasksStar e.1)).find?
          (fun e => e.1 == key) = none := by
        rw [List.find?_eq_none]
        intro x hx hbeq
        have hx2 := (List.mem_filter.mp hx).2
        have hxk : x.1 = key := by simpa using hbeq
        rw [hxk, hk] at hx2
        simp at hx2
      simp [hnone]
    · simp

/-- On a cache miss with a healthy Store, the list handler returns the
fresh row set with cached false and stores it for 60 seconds. -/
theorem listHandler_miss (env : Env) (s : StoreState) (c : Cache) (now : Nat)
    (hmiss : getFromCache env c now "tasks:all" = none)
    (hs : env.storeFail = none) :
    listHandler env s c now = (.readOk (.list (listTasks s)) false, s,
      setInCache env c now "tasks:all" (.list (listTasks s)) 60,
      [.cacheRead, .storeQuery, .cacheWrite]) := by
  unfold listHandler
  rw [hmiss, hs]

/-- On a cache miss with a healthy Store, the get-by-id handler
answers from the Store: the row when the id exists, 404 otherwise. -/
theorem getByIdHandler_miss (env : Env) (id : Nat) (s : StoreState) (c : Cache)
    (now : Nat)
    (hmiss : getFromCache env c now ("tasks:" ++ toString id) = none)
    (hs : env.storeFail = none) :
    (getByIdHandler env id s c now).1
      = (match s.tasks.find? (fun t => t.id == id) with
         | some t => Resp.readOk (.single t) false
         | none => Resp.notFound "Task not found") := by
  unfold getByIdHandler
  simp only []
  rw [hmiss, hs]
  cases hf : s.tasks.find? (fun t => t.id == id) <;> simp [hf]

/-- Splitting a count by a Boolean predicate covers the length. -/
theorem countP_add_countP_not (p : Task → Bool) (l : List Task) :
    l.countP p + l.countP (fun t => !p t) = l.length := by
  induction l with
  | nil => rfl
  | cons a l ih => by_cases h : p a <;> simp [List.countP_cons, h, ih] <;> omega

/-- C3: for every Store state, with a healthy Store, the stats
operation returns counts with total equal to completed plus pending,
where total counts all records, completed those with completed true
and pending those with completed false. -/
theorem c3_stats_total_eq_completed_add_pending (env : Env) (s : StoreState)
    (c : Cache) (h : env.storeFail = none) :
    (statsHandler env s c).1
      = .statsOk s.tasks.length (s.tasks.countP (fun t => t.completed))
          (s.tasks.countP (fun t => !t.completed)) ∧
    s.tasks.length
      = s.tasks.countP (fun t => t.completed)
          + s.tasks.countP (fun t => !t.completed) := by
  constructor
  · unfold statsHandler
    rw [h]
  · exact (countP_add_countP_not _ _).symm

/-- Witness for C3 at a concrete store with one completed and one
pending record. -/
theorem c3_stats_witness :
    okEnv.storeFail = none ∧
    ((statsHandler okEnv ⟨[⟨1, "a", "", true, 0, 0⟩, ⟨2, "b", "", false, 1, 1⟩], 3⟩ []).1
      = .statsOk 2 1 1 ∧ (2 : Nat) = 1 + 1) := by
  refine ⟨rfl, ?_, by decide⟩
  have h := (c3_stats_total_eq_completed_add_pending okEnv
    ⟨[⟨1, "a", "", true, 0, 0⟩, ⟨2, "b", "", false, 1, 1⟩], 3⟩ [] rfl).1
  simpa using h

/-- C9: with a healthy Store, a delete request whose id matches no
existing record returns 404, leaves the Store and the cache unchanged,
and performs no cache invalidation (the trace holds only the DELETE
query, which affected no row). -/
theorem c9_delete_nonexistent_no_effect (env : Env) (id : Nat) (s : StoreState)
    (c : Cache) (now : Nat) (hstore : env.storeFail = none)
    (hid : ∀ t ∈ s.tasks, t.id ≠ id) :
    handle env (.delete id) s c now
      = (.notFound "Task not found", s, c, [.storeWrite]) := by
  unfold handle deleteHandler
  rw [hstore]
  have hall : s.tasks.all (fun t => t.id != id) = true := by
    rw [List.all_eq_true]
    intro t ht
    simpa using hid t ht
  simp [hall]

/-- Witness for C9: deleting id 5 from a store holding only id 1. -/
theorem c9_delete_witness :
    okEnv.storeFail = none ∧
    (∀ t ∈ ([⟨1, "a", "", false, 0, 0⟩] : List Task), t.id ≠ 5) ∧
    handle okEnv (.delete 5) ⟨[⟨1, "a", "", false, 0, 0⟩], 2⟩ [] 9
      = (.notFound "Task not found", ⟨[⟨1, "a", "", false, 0, 0⟩], 2⟩, [],
         [.storeWrite]) :=
  ⟨rfl, by decide,
    c9_delete_nonexistent_no_effect okEnv 5 ⟨[⟨1, "a", "", false, 0, 0⟩], 2⟩ [] 9
      rfl (by decide)⟩

/-- C10: the create handler destructures only title and description
from the body, so a supplied completed field is ignored: the whole
outcome is the same as with completed absent, and a created record
always has completed false. -/
theorem c10_create_ignores_completed (env : Env) (b : Body) (s : StoreState)
    (c : Cache) (now : Nat) :
    handle env (.create b) s c now
      = handle env (.create ⟨b.title, b.description, none⟩) s c now ∧
    (∀ r, (handle env (.create b) s c now).1 = .created r → r.completed = false) := by
  constructor
  · rfl
  · intro r h
    have h2 : (createHandler env b s c now).1 = Resp.created r := h
    unfold createHandler at h2
    split at h2
    · simp at h2
    · split at h2
      · simp at h2
      · split at h2
        · simp at h2
        · simp only [Resp.created.injEq] at h2
          rw [← h2]

/-- Witness for C10: creating with completed supplied as true still
yields a record with completed false. -/
theorem c10_create_witness :
    (handle okEnv (.create ⟨some "a", some "d", some true⟩) initialStore [] 0).1
      = .created ⟨1, "a", "d", false, 0, 0⟩ ∧
    (⟨1, "a", "d", false, 0, 0⟩ : Task).completed = false :=
  ⟨by decide,
    (c10_create_ignores_completed okEnv ⟨some "a", some "d", some true⟩
        initialStore [] 0).2 ⟨1, "a", "d", false, 0, 0⟩ (by decide)⟩

/-- The list handler never changes the Store. -/
theorem listHandler_store (env : Env) (s : StoreState) (c : Cache) (now : Nat) :
    (listHandler env s c now).2.1 = s := by
  unfold listHandler
  split
  · rfl
  · split <;> rfl

/-- The get-by-id handler never changes the Store. -/
theorem getByIdHandler_store (env : Env) (id : Nat) (s : StoreState) (c : Cache)
    (now : Nat) : (getByIdHandler env id s c now).2.1 = s := by
  unfold getByIdHandler
  simp only []
  cases hg : getFromCache env c now ("tasks:" ++ toString id)
  · cases henv : env.storeFail
    · cases hf : s.tasks.find? (fun t => t.id == id) <;> rfl
    · rfl
  · rfl

/-- The stats handler never changes the Store. -/
theorem statsHandler_store (env : Env) (s : StoreState) (c : Cache) :
    (statsHandler env s c).2.1 = s := by
  unfold statsHandler
  split <;> rfl

/-- C4 counterexample: from the initial store, create a task titled
"Buy milk", then update it supplying an empty title; the resulting
reachable store holds a record whose title is empty, because the PUT
handler only tests that the title field is present, not that it is
non-empty. -/
theorem c4_counterexample_update_empties_title :
    (((handle okEnv (.update 1 ⟨some "", none, none⟩)
        (handle okEnv (.create ⟨some "Buy milk", none, none⟩) initialStore [] 0).2.1
        (handle okEnv (.create ⟨some "Buy milk", none, none⟩) initialStore [] 0).2.2.1
        1).2.1).tasks.any (fun t => t.title == "")) = true := by decide

/-- C4 amended: a create never stores an empty title, and every
operation preserves non-emptiness of all titles except an update whose
body supplies the empty string as title, which stores it. -/
theorem c4_amended_titles_nonempty_preserved (env : Env) (req : Req)
    (s : StoreState) (c : Cache) (now : Nat)
    (hinv : titlesNonEmpty s)
    (hreq : ∀ id b, req = .update id b → b.title ≠ some "") :
    titlesNonEmpty (handle env req s c now).2.1 := by
  cases req with
  | list =>
    show titlesNonEmpty (listHandler env s c now).2.1
    rw [listHandler_store]
    exact hinv
  | getById id =>
    show titlesNonEmpty (getByIdHandler env id s c now).2.1
    rw [getByIdHandler_store]
    exact hinv
  | stats =>
    show titlesNonEmpty (statsHandler env s c).2.1
    rw [statsHandler_store]
    exact hinv
  | create b =>
    show titlesNonEmpty (createHandler env b s c now).2.1
    unfold createHandler
    split
    · exact hinv
    · split
      · exact hinv
      · split
        · exact hinv
        · rename_i hne _ _
          intro x hx
          simp only [List.mem_append, List.mem_singleton] at hx
          rcases hx with hx | hx
          · exact hinv x hx
          · subst hx
            intro heq
            have hne2 : ¬((_ == "") = true) := hne
            rw [beq_iff_eq] at hne2
            exact hne2 heq
  | update id b =>
    show titlesNonEmpty (updateHandler env id b s c now).2.1
    have hb := hreq id b rfl
    unfold updateHandler
    split
    · exact hinv
    · split
      · exact hinv
      · split
        · exact hinv
        · intro x hx
          simp only [List.mem_map] at hx
          obtain ⟨y, hy, rfl⟩ := hx
          by_cases hid : (y.id == id) = true
          · rw [if_pos hid]
            unfold applyUpdateFields
            rcases hbt : b.title with _ | v
            · exact hinv y hy
            · show v ≠ ""
              intro hv
              subst hv
              exact hb hbt
          · rw [if_neg hid]
            exact hinv y hy
  | delete id =>
    show titlesNonEmpty (deleteHandler env id s c).2.1
    unfold deleteHandler
    split
    · exact hinv
    · split
      · exact hinv
      · intro x hx
        exact hinv x (List.mem_filter.mp hx).1

/-- Witness for the amended C4: an update that renames without
emptying the title keeps every title non-empty. -/
theorem c4_amended_witness :
    titlesNonEmpty ⟨[⟨1, "a", "", false, 0, 0⟩], 2⟩ ∧
    titlesNonEmpty
      (handle okEnv (.update 1 ⟨some "b", none, none⟩)
        ⟨[⟨1, "a", "", false, 0, 0⟩], 2⟩ [] 5).2.1 :=
  ⟨by unfold titlesNonEmpty; decide,
    c4_amended_titles_nonempty_preserved okEnv (.update 1 ⟨some "b", none, none⟩)
      ⟨[⟨1, "a", "", false, 0, 0⟩], 2⟩ [] 5 (by unfold titlesNonEmpty; decide)
      (by
        intro id b h
        injection h with h1 h2
        subst h2
        decide)⟩

/-- C5 counterexample: an update request with an empty field subset on
a nonexistent id returns 404, not the claimed 400, and its trace shows
a Store read preceding any validation. -/
theorem c5_counterexample_empty_subset_gets_404 :
    handle okEnv (.update 1 ⟨none, none, none⟩) initialStore [] 0
      = (.notFound "Task not found", initialStore, [], [.storeQuery]) := by decide

/-- C5 amended: with a healthy Store, an update supplying an empty
field subset never mutates the Store or the cache, and its trace holds
exactly the existence-check read, so the check precedes the
validation; on an existing id it returns 400, on a nonexistent id it
returns 404. -/
theorem c5_amended_empty_subset (env : Env) (id : Nat) (b : Body) (s : StoreState)
    (c : Cache) (now : Nat) (hstore : env.storeFail = none)
    (hb : hasFields b = false) :
    (handle env (.update id b) s c now).2.1 = s ∧
    (handle env (.update id b) s c now).2.2.1 = c ∧
    (handle env (.update id b) s c now).2.2.2 = [.storeQuery] ∧
    ((∃ t ∈ s.tasks, t.id = id) →
        (handle env (.update id b) s c now).1 = .badRequest "No fields to update") ∧
    ((∀ t ∈ s.tasks, t.id ≠ id) →
        (handle env (.update id b) s c now).1 = .notFound "Task not found") := by
  have hred : handle env (.update id b) s c now = updateHandler env id b s c now := rfl
  cases hf : s.tasks.find? (fun t => t.id == id) with
  | none =>
    have hval : updateHandler env id b s c now
        = (.notFound "Task not found", s, c, [.storeQuery]) := by
      unfold updateHandler
      rw [hstore, hf]
    rw [hred, hval]
    refine ⟨rfl, rfl, rfl, ?_, fun _ => rfl⟩
    intro ⟨t, ht, hid⟩
    rw [List.find?_eq_none] at hf
    exact absurd (by simp [hid]) (hf t ht)
  | some old =>
    have hcond : (!hasFields b) = true := by rw [hb]; rfl
    have hval : updateHandler env id b s c now
        = (.badRequest "No fields to update", s, c, [.storeQuery]) := by
      unfold updateHandler
      rw [hstore, hf, hcond]
      rfl
    rw [hred, hval]
    refine ⟨rfl, rfl, rfl, fun _ => rfl, ?_⟩
    intro hall
    have hmem := List.mem_of_find?_eq_some hf
    have hp := List.find?_some hf
    have : old.id = id := by simpa using hp
    exact absurd this (hall old hmem)

/-- Witness for the amended C5: empty subset on an existing id. -/
theorem c5_amended_witness :
    okEnv.storeFail = none ∧
    hasFields ⟨none, none, none⟩ = false ∧
    (handle okEnv (.update 1 ⟨none, none, none⟩) ⟨[⟨1, "a", "", false, 0, 0⟩], 2⟩ [] 3).2.1
      = ⟨[⟨1, "a", "", false, 0, 0⟩], 2⟩ ∧
    (handle okEnv (.update 1 ⟨none, none, none⟩) ⟨[⟨1, "a", "", false, 0, 0⟩], 2⟩ [] 3).2.2.1
      = [] ∧
    (handle okEnv (.update 1 ⟨none, none, none⟩) ⟨[⟨1, "a", "", false, 0, 0⟩], 2⟩ [] 3).2.2.2
      = [.storeQuery] ∧
    ((∃ t ∈ ([⟨1, "a", "", false, 0, 0⟩] : List Task), t.id = 1) →
        (handle okEnv (.update 1 ⟨none, none, none⟩) ⟨[⟨1, "a", "", false, 0, 0⟩], 2⟩ [] 3).1
          = .badRequest "No fields to update") :=
  ⟨rfl, rfl,
    (c5_amended_empty_subset okEnv 1 ⟨none, none, none⟩
        ⟨[⟨1, "a", "", false, 0, 0⟩], 2⟩ [] 3 rfl rfl).1,
    (c5_amended_empty_subset okEnv 1 ⟨none, none, none⟩
        ⟨[⟨1, "a", "", false, 0, 0⟩], 2⟩ [] 3 rfl rfl).2.1,
    (c5_amended_empty_subset okEnv 1 ⟨none, none, none⟩
        ⟨[⟨1, "a", "", false, 0, 0⟩], 2⟩ [] 3 rfl rfl).2.2.1,
    (c5_amended_empty_subset okEnv 1 ⟨none, none, none⟩
        ⟨[⟨1, "a", "", false, 0, 0⟩], 2⟩ [] 3 rfl rfl).2.2.2.1⟩

/-- The JS defaulting `description || empty` is the identity on the
strings the handler stores. -/
theorem emptyDefault_eq (d : String) : (if (d == "") = true then "" else d) = d := by
  by_cases h : (d == "") = true
  · rw [if_pos h]
    exact (beq_iff_eq.mp h).symm
  · rw [if_neg h]

/-- Shape of a successful create: the inserted row and the new store,
cache and trace. -/
theorem createHandler_success (env : Env) (b : Body) (s : StoreState) (c : Cache)
    (now : Nat) (ti : String) (hti : b.title = some ti) (hne : (ti == "") = false)
    (hstore : env.storeFail = none) :
    createHandler env b s c now
      = (.created ⟨s.nextId, ti, b.description.getD "", false, now, now⟩,
         ⟨s.tasks ++ [⟨s.nextId, ti, b.description.getD "", false, now, now⟩],
          s.nextId + 1⟩,
         invalidateCache env c, [.storeWrite, .cacheInval]) := by
  unfold createHandler
  simp only [hti, hne, hstore, Bool.false_eq_true, if_false]
  cases hd : b.description with
  | none => rfl
  | some d =>
    simp only [hd, emptyDefault_eq, Option.getD_some]

/-- C7: with a healthy Store and ids below the SERIAL sequence value,
a create with absent or empty title returns 400 and leaves the Store
unchanged; otherwise it returns 201 with a record whose id is the
fresh sequence value unseen among existing records, whose description
defaults to the empty string, whose completed is false and whose two
timestamps are equal, and appends exactly that record to the Store. -/
theorem c7_create_contract (env : Env) (b : Body) (s : StoreState) (c : Cache)
    (now : Nat) (hstore : env.storeFail = none) (hfresh : freshIds s) :
    ((b.title = none ∨ b.title = some "") →
        (handle env (.create b) s c now).1 = .badRequest "Title is required" ∧
        (handle env (.create b) s c now).2.1 = s) ∧
    (∀ ti, b.title = some ti → ti ≠ "" →
      ∃ r, (handle env (.create b) s c now).1 = .created r ∧
        r.id = s.nextId ∧ (∀ t ∈ s.tasks, t.id ≠ r.id) ∧ r.title = ti ∧
        r.description = b.description.getD "" ∧ r.completed = false ∧
        r.created_at = now ∧ r.updated_at = now ∧
        (handle env (.create b) s c now).2.1.tasks = s.tasks ++ [r]) := by
  have hred : handle env (.create b) s c now = createHandler env b s c now := rfl
  constructor
  · intro hbt
    have hval : createHandler env b s c now
        = (.badRequest "Title is required", s, c, []) := by
      unfold createHandler
      rcases hbt with h | h <;> rw [h]
      rfl
    rw [hred, hval]
    exact ⟨rfl, rfl⟩
  · intro ti hti hne
    have hne2 : (ti == "") = false := by
      rw [beq_eq_false_iff_ne]
      exact hne
    rw [hred, createHandler_success env b s c now ti hti hne2 hstore]
    refine ⟨⟨s.nextId, ti, b.description.getD "", false, now, now⟩,
      rfl, rfl, ?_, rfl, rfl, rfl, rfl, rfl, rfl⟩
    intro t ht
    exact Nat.ne_of_lt (hfresh t ht)

/-- Witness for C7: creating with a non-empty title from the initial
store. -/
theorem c7_create_witness :
    okEnv.storeFail = none ∧
    freshIds initialStore ∧
    (∃ r, (handle okEnv (.create ⟨some "Buy milk", none, none⟩) initialStore [] 7).1
          = .created r ∧
        r.id = initialStore.nextId ∧
        (∀ t ∈ initialStore.tasks, t.id ≠ r.id) ∧ r.title = "Buy milk" ∧
        r.description = (none : Option String).getD "" ∧ r.completed = false ∧
        r.created_at = 7 ∧ r.updated_at = 7 ∧
        (handle okEnv (.create ⟨some "Buy milk", none, none⟩) initialStore [] 7).2.1.tasks
          = initialStore.tasks ++ [r]) :=
  ⟨rfl, by unfold freshIds; decide,
    (c7_create_contract okEnv ⟨some "Buy milk", none, none⟩ initialStore [] 7 rfl
        (by unfold freshIds; decide)).2 "Buy milk" rfl (by decide)⟩

/-- Shape of a successful update: the updated row, the mapped store,
the invalidated cache and the trace. -/
theorem updateHandler_success (env : Env) (id : Nat) (b : Body) (s : StoreState)
    (c : Cache) (now : Nat) (old : Task)
    (hstore : env.storeFail = none)
    (hfind : s.tasks.find? (fun t => t.id == id) = some old)
    (hb : hasFields b = true) :
    updateHandler env id b s c now
      = (.updated (applyUpdateFields b now old),
         ⟨s.tasks.map (fun t => if t.id == id then applyUpdateFields b now t else t),
          s.nextId⟩,
         invalidateCache env c, [.storeQuery, .storeWrite, .cacheInval]) := by
  unfold updateHandler
  have hcond : (!hasFields b) = false := by rw [hb]; rfl
  simp only [hstore, hfind, hcond, Bool.false_eq_true, if_false]

/-- C6: with a healthy Store, an update on an existing id supplying a
non-empty field subset changes exactly the supplied fields, keeps id,
created_at and every unsupplied field, refreshes updated_at to the
current instant (strictly larger under a strictly advanced clock), and
leaves every other record in place. -/
theorem c6_update_frame (env : Env) (id : Nat) (b : Body) (s : StoreState)
    (c : Cache) (now : Nat) (old : Task)
    (hstore : env.storeFail = none)
    (hfind : s.tasks.find? (fun t => t.id == id) = some old)
    (hb : hasFields b = true)
    (hclock : old.updated_at < now) :
    ∃ r, (handle env (.update id b) s c now).1 = .updated r ∧
      r.id = old.id ∧ r.created_at = old.created_at ∧
      r.title = b.title.getD old.title ∧
      r.description = b.description.getD old.description ∧
      r.completed = b.completed.getD old.completed ∧
      r.updated_at = now ∧ old.updated_at < r.updated_at ∧
      (handle env (.update id b) s c now).2.1.tasks
        = s.tasks.map (fun t => if t.id == id then applyUpdateFields b now t else t) ∧
      (∀ t ∈ s.tasks, t.id ≠ id →
          t ∈ (handle env (.update id b) s c now).2.1.tasks) := by
  have hred : handle env (.update id b) s c now = updateHandler env id b s c now := rfl
  obtain ⟨bt, bd, bc⟩ := b
  rw [hred, updateHandler_success env id ⟨bt, bd, bc⟩ s c now old hstore hfind hb]
  refine ⟨applyUpdateFields ⟨bt, bd, bc⟩ now old, rfl, rfl, rfl, ?_, ?_, ?_, rfl, hclock,
    rfl, ?_⟩
  · cases bt <;> rfl
  · cases bd <;> rfl
  · cases bc <;> rfl
  · intro t ht hne
    refine List.mem_map.mpr ⟨t, ht, ?_⟩
    have hfalse : (t.id == id) = false := beq_eq_false_iff_ne.mpr hne
    simp [hfalse]

/-- Witness for C6: marking the only task completed at instant 5. -/
theorem c6_update_witness :
    okEnv.storeFail = none ∧
    ([⟨1, "a", "d", false, 0, 0⟩] : List Task).find? (fun t => t.id == 1)
      = some ⟨1, "a", "d", false, 0, 0⟩ ∧
    hasFields ⟨none, none, some true⟩ = true ∧
    (⟨1, "a", "d", false, 0, 0⟩ : Task).updated_at < 5 ∧
    (∃ r, (handle okEnv (.update 1 ⟨none, none, some true⟩)
          ⟨[⟨1, "a", "d", false, 0, 0⟩], 2⟩ [] 5).1 = .updated r ∧
      r.id = 1 ∧ r.created_at = 0 ∧ r.title = "a" ∧ r.description = "d" ∧
      r.completed = true ∧ r.updated_at = 5) := by
  refine ⟨rfl, rfl, rfl, by decide, ?_⟩
  obtain ⟨r, h1, h2, h3, h4, h5, h6, h7, -⟩ :=
    c6_update_frame okEnv 1 ⟨none, none, some true⟩
      ⟨[⟨1, "a", "d", false, 0, 0⟩], 2⟩ [] 5 ⟨1, "a", "d", false, 0, 0⟩
      rfl rfl rfl (by decide)
  exact ⟨r, h1, h2, h3, h4, h5, h6, h7⟩

/-- Shape of a get-by-id that misses the cache and finds the row. -/
theorem getByIdHandler_found (env : Env) (id : Nat) (s : StoreState) (c : Cache)
    (now : Nat) (t : Task)
    (hmiss : getFromCache env c now ("tasks:" ++ toString id) = none)
    (hstore : env.storeFail = none)
    (hfind : s.tasks.find? (fun x => x.id == id) = some t) :
    getByIdHandler env id s c now
      = (.readOk (.single t) false, s,
         setInCache env c now ("tasks:" ++ toString id) (.single t) 300,
         [.cacheRead, .storeQuery, .cacheWrite]) := by
  unfold getByIdHandler
  simp only []
  rw [hmiss, hstore, hfind]

/-- A successful setInCache places the entry with its absolute expiry
at the head of the cache. -/
theorem setInCache_mem (env : Env) (c : Cache) (now : Nat) (key : String)
    (v : CacheValue) (es : Nat) (hc : env.redisConnected = true)
    (hs : env.setFails = false) :
    (key, v, now + es) ∈ setInCache env c now key v es := by
  unfold setInCache
  rw [hc, hs]
  simp

/-- C8: the list operation attempts the cache first; on a hit it
returns the cached value with cached true and writes nothing; on a
miss, with a healthy Store, it returns every record ordered by
created_at descending with cached false and caches the list under the
collection key expiring 60 seconds later, while get-by-id on a miss
caches the single record expiring 300 seconds later. -/
theorem c8_read_through (env : Env) (s : StoreState) (c : Cache) (now : Nat) :
    (∀ v, getFromCache env c now "tasks:all" = some v →
        listHandler env s c now = (.readOk v true, s, c, [.cacheRead])) ∧
    (getFromCache env c now "tasks:all" = none → env.storeFail = none →
        (listHandler env s c now).1 = .readOk (.list (listTasks s)) false ∧
        (listTasks s).Perm s.tasks ∧
        List.Sorted (fun a b : Task => b.created_at ≤ a.created_at) (listTasks s) ∧
        (env.redisConnected = true → env.setFails = false →
          ("tasks:all", CacheValue.list (listTasks s), now + 60)
            ∈ (listHandler env s c now).2.2.1)) ∧
    (∀ id t, getFromCache env c now ("tasks:" ++ toString id) = none →
        env.storeFail = none →
        s.tasks.find? (fun x => x.id == id) = some t →
        (getByIdHandler env id s c now).1 = .readOk (.single t) false ∧
        (env.redisConnected = true → env.setFails = false →
          ("tasks:" ++ toString id, CacheValue.single t, now + 300)
            ∈ (getByIdHandler env id s c now).2.2.1)) := by
  refine ⟨?_, ?_, ?_⟩
  · intro v hv
    unfold listHandler
    rw [hv]
  · intro hmiss hstore
    rw [listHandler_miss env s c now hmiss hstore]
    refine ⟨rfl, List.perm_insertionSort _ _, ?_, ?_⟩
    · have : IsTotal Task (fun a b : Task => b.created_at ≤ a.created_at) :=
        ⟨fun a b => Nat.le_total b.created_at a.created_at⟩
      have : IsTrans Task (fun a b : Task => b.created_at ≤ a.created_at) :=
        ⟨fun a b c hab hbc => Nat.le_trans hbc hab⟩
      exact List.sorted_insertionSort _ _
    · intro hc hs
      exact setInCache_mem env c now "tasks:all" (.list (listTasks s)) 60 hc hs
  · intro id t hmiss hstore hfind
    rw [getByIdHandler_found env id s c now t hmiss hstore hfind]
    refine ⟨rfl, ?_⟩
    intro hc hs
    exact setInCache_mem env c now ("tasks:" ++ toString id) (.single t) 300 hc hs

/-- Witness for C8: a miss on the empty cache over a two-row store,
and a get-by-id miss that finds id 1. -/
theorem c8_read_through_witness :
    getFromCache okEnv [] 0 "tasks:all" = none ∧
    okEnv.storeFail = none ∧
    ([⟨1, "a", "", false, 0, 0⟩, ⟨2, "b", "", false, 4, 4⟩] : List Task).find?
      (fun x => x.id == 1) = some ⟨1, "a", "", false, 0, 0⟩ ∧
    (listHandler okEnv ⟨[⟨1, "a", "", false, 0, 0⟩, ⟨2, "b", "", false, 4, 4⟩], 3⟩ [] 0).1
      = .readOk (.list (listTasks ⟨[⟨1, "a", "", false, 0, 0⟩, ⟨2, "b", "", false, 4, 4⟩], 3⟩))
          false ∧
    (getByIdHandler okEnv 1 ⟨[⟨1, "a", "", false, 0, 0⟩, ⟨2, "b", "", false, 4, 4⟩], 3⟩ [] 0).1
      = .readOk (.single ⟨1, "a", "", false, 0, 0⟩) false := by
  have hmiss : getFromCache okEnv [] 0 "tasks:all" = none := rfl
  have hmiss2 : getFromCache okEnv [] 0 ("tasks:" ++ toString 1) = none := rfl
  have h := c8_read_through okEnv
    ⟨[⟨1, "a", "", false, 0, 0⟩, ⟨2, "b", "", false, 4, 4⟩], 3⟩ [] 0
  exact ⟨hmiss, rfl, rfl, (h.2.1 hmiss rfl).1,
    (h.2.2 1 ⟨1, "a", "", false, 0, 0⟩ hmiss2 rfl rfl).1⟩

/-- C2: cache failures are absorbed: with a healthy Store no request
ever answers with a 500, whatever the cache environment; a
disconnected cache makes every read miss (degrading to the Store
loader), makes cache writes and invalidations no-ops, and still lets
the list endpoint answer from the Store. -/
theorem c2_cache_failures_absorbed (env : Env) (req : Req) (s : StoreState)
    (c : Cache) (now : Nat) :
    (env.storeFail = none → isServerError (handle env req s c now).1 = false) ∧
    (env.redisConnected = false → ∀ key, getFromCache env c now key = none) ∧
    (env.redisConnected = false ∨ env.setFails = true →
        ∀ key v es, setInCache env c now key v es = c) ∧
    (env.redisConnected = false ∨ env.invalidateFails = true →
        invalidateCache env c = c) ∧
    (env.redisConnected = false → env.storeFail = none →
        (listHandler env s c now).1 = .readOk (.list (listTasks s)) false) := by
  refine ⟨?_, ?_, ?_, ?_, ?_⟩
  · intro h
    cases req with
    | list =>
      show isServerError (listHandler env s c now).1 = false
      unfold listHandler
      rw [h]
      split
      · rfl
      · rfl
    | getById id =>
      show isServerError (getByIdHandler env id s c now).1 = false
      unfold getByIdHandler
      simp only []
      rw [h]
      cases hg : getFromCache env c now ("tasks:" ++ toString id)
      · cases hf : s.tasks.find? (fun t => t.id == id) <;> rfl
      · rfl
    | create b =>
      show isServerError (createHandler env b s c now).1 = false
      unfold createHandler
      rw [h]
      split
      · rfl
      · split
        · rfl
        · rfl
    | update id b =>
      show isServerError (updateHandler env id b s c now).1 = false
      unfold updateHandler
      cases hs : env.storeFail with
      | some m =>
        rw [h] at hs
        cases hs
      | none =>
        cases hf : s.tasks.find? (fun t => t.id == id)
        · rfl
        · by_cases hfb : (!hasFields b) = true <;> simp [hfb, isServerError]
    | delete id =>
      show isServerError (deleteHandler env id s c).1 = false
      unfold deleteHandler
      rw [h]
      by_cases hall : (s.tasks.all (fun t => t.id != id)) = true <;>
        simp [hall, isServerError]
    | stats =>
      show isServerError (statsHandler env s c).1 = false
      unfold statsHandler
      rw [h]
      rfl
  · intro h key
    unfold getFromCache
    rw [h]
    rfl
  · intro h key v es
    unfold setInCache
    rcases h with h | h
    · rw [h]
      rfl
    · rw [h]
      cases env.redisConnected <;> rfl
  · intro h
    unfold invalidateCache
    rcases h with h | h
    · rw [h]
      rfl
    · rw [h]
      cases env.redisConnected <;> rfl
  · intro h hstore
    have hmiss : getFromCache env c now "tasks:all" = none := by
      unfold getFromCache
      rw [h]
      rfl
    rw [listHandler_miss env s c now hmiss hstore]

/-- Witness for C2: a fully failing cache environment over a healthy
Store still answers the list request with Store data and no 500. -/
theorem c2_cache_failures_witness :
    (⟨false, true, true, true, none⟩ : Env).storeFail = none ∧
    isServerError
      (handle ⟨false, true, true, true, none⟩ .list
        ⟨[⟨1, "a", "", false, 0, 0⟩], 2⟩ [] 0).1 = false ∧
    getFromCache ⟨false, true, true, true, none⟩ [] 0 "tasks:all" = none ∧
    setInCache ⟨false, true, true, true, none⟩ [] 0 "tasks:all" (.list []) 60 = [] ∧
    invalidateCache ⟨false, true, true, true, none⟩ [] = [] ∧
    (listHandler ⟨false, true, true, true, none⟩ ⟨[⟨1, "a", "", false, 0, 0⟩], 2⟩ [] 0).1
      = .readOk (.list (listTasks ⟨[⟨1, "a", "", false, 0, 0⟩], 2⟩)) false := by
  have h := c2_cache_failures_absorbed ⟨false, true, true, true, none⟩ .list
    ⟨[⟨1, "a", "", false, 0, 0⟩], 2⟩ [] 0
  exact ⟨rfl, h.1 rfl, h.2.1 rfl "tasks:all", h.2.2.1 (Or.inl rfl) "tasks:all" (.list []) 60,
    h.2.2.2.1 (Or.inl rfl), h.2.2.2.2 rfl rfl⟩

/-- The list handler never answers a write-success response. -/
theorem listHandler_not_write (env : Env) (s : StoreState) (c : Cache) (now : Nat) :
    isWriteSuccess (listHandler env s c now).1 = false := by
  unfold listHandler
  split
  · rfl
  · split <;> rfl

/-- The get-by-id handler never answers a write-success response. -/
theorem getByIdHandler_not_write (env : Env) (id : Nat) (s : StoreState)
    (c : Cache) (now : Nat) :
    isWriteSuccess (getByIdHandler env id s c now).1 = false := by
  unfold getByIdHandler
  simp only []
  cases hg : getFromCache env c now ("tasks:" ++ toString id)
  · cases henv : env.storeFail
    · cases hf : s.tasks.find? (fun t => t.id == id) <;> rfl
    · rfl
  · rfl

/-- The stats handler never answers a write-success response. -/
theorem statsHandler_not_write (env : Env) (s : StoreState) (c : Cache) :
    isWriteSuccess (statsHandler env s c).1 = false := by
  unfold statsHandler
  split <;> rfl

/-- After a successful invalidation, any later list read answers the
fresh Store rows with cached false, and any later get-by-id answers
the fresh Store row or 404, never a cached value. -/
theorem fresh_after_invalidate (env env2 : Env) (s2 : StoreState) (c : Cache)
    (now2 : Nat) (hc : env.redisConnected = true) (hf : env.invalidateFails = false)
    (hstore2 : env2.storeFail = none) :
    (listHandler env2 s2 (invalidateCache env c) now2).1
      = .readOk (.list (listTasks s2)) false ∧
    ∀ i, (getByIdHandler env2 i s2 (invalidateCache env c) now2).1
      = (match s2.tasks.find? (fun t => t.id == i) with
         | some t => Resp.readOk (.single t) false
         | none => Resp.notFound "Task not found") := by
  constructor
  · have hmiss : getFromCache env2 (invalidateCache env c) now2 "tasks:all" = none :=
      getFromCache_after_invalidate env env2 c now2 _ hc hf matchesTasksStar_all
    rw [listHandler_miss env2 s2 _ now2 hmiss hstore2]
  · intro i
    have hmiss : getFromCache env2 (invalidateCache env c) now2
        ("tasks:" ++ toString i) = none :=
      getFromCache_after_invalidate env env2 c now2 _ hc hf (matchesTasksStar_key _)
    exact getByIdHandler_miss env2 i s2 _ now2 hmiss hstore2

/-- C1: every successful write commits to the Store and then attempts
exactly one cache invalidation, in that order, before the response;
and when the invalidation succeeds, every later list or get-by-id, at
any instant and under any healthy-Store environment, answers the new
Store state with cached false rather than any cached value. -/
theorem c1_write_invalidate_fresh (env : Env) (req : Req) (s : StoreState)
    (c : Cache) (now : Nat)
    (hw : isWriteSuccess (handle env req s c now).1 = true) :
    ((handle env req s c now).2.2.2).filter
        (fun e => e == Ev.storeWrite || e == Ev.cacheInval)
      = [Ev.storeWrite, Ev.cacheInval] ∧
    (env.redisConnected = true → env.invalidateFails = false →
      ∀ env2 now2, env2.storeFail = none →
        (listHandler env2 (handle env req s c now).2.1
            (handle env req s c now).2.2.1 now2).1
          = .readOk (.list (listTasks (handle env req s c now).2.1)) false ∧
        ∀ i, (getByIdHandler env2 i (handle env req s c now).2.1
              (handle env req s c now).2.2.1 now2).1
          = (match ((handle env req s c now).2.1).tasks.find? (fun t => t.id == i) with
             | some t => Resp.readOk (.single t) false
             | none => Resp.notFound "Task not found")) := by
  cases req with
  | list =>
    have h1 : handle env .list s c now = listHandler env s c now := rfl
    rw [h1, listHandler_not_write] at hw
    cases hw
  | getById id =>
    have h1 : handle env (.getById id) s c now = getByIdHandler env id s c now := rfl
    rw [h1, getByIdHandler_not_write] at hw
    cases hw
  | stats =>
    have h1 : handle env .stats s c now = statsHandler env s c := rfl
    rw [h1, statsHandler_not_write] at hw
    cases hw
  | create b =>
    have h1 : handle env (.create b) s c now = createHandler env b s c now := rfl
    rw [h1] at hw ⊢
    rcases hbt : b.title with _ | t
    · simp [createHandler, hbt, isWriteSuccess] at hw
    · by_cases ht : (t == "") = true
      · simp [createHandler, hbt, ht, isWriteSuccess] at hw
      · cases hs : env.storeFail with
        | some m => simp [createHandler, hbt, ht, hs, isWriteSuccess] at hw
        | none =>
          rw [createHandler_success env b s c now t hbt (Bool.eq_false_iff.mpr ht) hs]
          refine ⟨rfl, ?_⟩
          intro hc hf env2 now2 hstore2
          exact fresh_after_invalidate env env2 _ c now2 hc hf hstore2
  | update id b =>
    have h1 : handle env (.update id b) s c now = updateHandler env id b s c now := rfl
    rw [h1] at hw ⊢
    cases hs : env.storeFail with
    | some m => simp [updateHandler, hs, isWriteSuccess] at hw
    | none =>
      cases hfind : s.tasks.find? (fun t => t.id == id) with
      | none => simp [updateHandler, hs, hfind, isWriteSuccess] at hw
      | some old =>
        by_cases hfb : hasFields b = true
        · rw [updateHandler_success env id b s c now old hs hfind hfb]
          refine ⟨rfl, ?_⟩
          intro hc hf env2 now2 hstore2
          exact fresh_after_invalidate env env2 _ c now2 hc hf hstore2
        · have hfb2 : hasFields b = false := Bool.eq_false_iff.mpr hfb
          simp [updateHandler, hs, hfind, hfb2, isWriteSuccess] at hw
  | delete id =>
    have h1 : handle env (.delete id) s c now = deleteHandler env id s c := rfl
    rw [h1] at hw ⊢
    cases hs : env.storeFail with
    | some m => simp [deleteHandler, hs, isWriteSuccess] at hw
    | none =>
      by_cases hall : (s.tasks.all (fun t => t.id != id)) = true
      · simp [deleteHandler, hs, hall, isWriteSuccess] at hw
      · have hall2 : (s.tasks.all (fun t => t.id != id)) = false :=
          Bool.eq_false_iff.mpr hall
        have hval : deleteHandler env id s c
            = (.deleted id, ⟨s.tasks.filter (fun t => t.id != id), s.nextId⟩,
               invalidateCache env c, [.storeWrite, .cacheInval]) := by
          unfold deleteHandler
          rw [hs, hall2]
          rfl
        rw [hval]
        refine ⟨rfl, ?_⟩
        intro hc hf env2 now2 hstore2
        exact fresh_after_invalidate env env2 _ c now2 hc hf hstore2

/-- Witness for C1: a concrete successful create from the initial
store. -/
theorem c1_write_invalidate_witness :
    isWriteSuccess
      (handle okEnv (.create ⟨some "a", none, none⟩) initialStore [] 0).1 = true ∧
    ((handle okEnv (.create ⟨some "a", none, none⟩) initialStore [] 0).2.2.2).filter
        (fun e => e == Ev.storeWrite || e == Ev.cacheInval)
      = [Ev.storeWrite, Ev.cacheInval] :=
  ⟨by decide,
    (c1_write_invalidate_fresh okEnv (.create ⟨some "a", none, none⟩)
        initialStore [] 0 (by decide)).1⟩

end TaskManager

